import Mathlib

/-!
Verification development for the callisto repository: a shallow embedding of
the agent orchestration state machine (`shouldContinue`, `toolExecutorNode`,
`humanInTheLoopNode` from `apps/callisto-agent-service/src/app/agent-state.ts`)
and of the client-side tool registry (`getToolDefinitionsForAgent`,
`executeTool` from `libs/callisto/src/lib/services`, tool-registry service),
together with theorems about the routing, rendering and execution behaviour.

Modelling conventions:
- JavaScript `Record<string, any>` argument payloads are modelled as
  association lists `List (String × String)` (field name to an opaque
  stringified value); the orchestration code only moves them around and
  hands them to Zod, never inspects them.
- A Zod object schema is modelled by its observable behaviour in this code
  base: `safeParse` either succeeds or fails with an error message
  (`z.ZodError.message`). `parse` (used by `executeTool`) throwing a
  `ZodError` corresponds to the `Except.error` branch.
- Thrown JavaScript exceptions are modelled with `Except`.
-/

namespace Callisto

/-- Tool-call argument payload: a JS `Record<string, any>`, as an association
list from field name to an opaque value. -/
abbrev Args := List (String × String)

/-- A Zod object schema, by its observable behaviour: `safeParse` succeeds or
fails with a `ZodError` message.  `valid args` is `safeParse(args).success`. -/
structure ZodSchema where
  safeParse : Args → Except String Unit

/-- Value of `safeParse(args).success` as a Bool. -/
def ZodSchema.valid (s : ZodSchema) (args : Args) : Bool :=
  match s.safeParse args with
  | Except.ok _ => true
  | Except.error _ => false

/-- A LangChain tool call carried by an `AIMessage`
(`name`, `args`, optional `id`; the `type` tag is set by `toolExecutorNode`
when it re-emits the call). -/
structure ToolCall where
  name : String
  args : Args
  id : Option String
  type : Option String := none
deriving DecidableEq

/-- The conversation messages the agent service manipulates
(`BaseMessage` from LangChain): the routing code only distinguishes
`AIMessage` (with its optional `tool_calls` array) from everything else.
`tool_calls = none` models the field being `undefined`. -/
inductive BaseMessage where
  | ai (content : String) (tool_calls : Option (List ToolCall))
       (additional_kwargs_type : Option String)
  | human (content : String)
  | tool (content : String) (tool_call_id : String)

/-- Structure `AgentToolDefinition` from `agent-state.ts`: what the agent knows about a
tool (name, description, schema — never the executable function). -/
structure AgentToolDefinition where
  name : String
  description : String
  schema : ZodSchema

/-- Structure `AgentState` from `agent-state.ts`: the per-request session state.
`tool_definitions` is a `Record<string, AgentToolDefinition>`, modelled as an
association list looked up by key. -/
structure AgentState where
  messages : List BaseMessage
  tool_definitions : List (String × AgentToolDefinition)
  requires_user_input : Bool
  pending_tool_name : Option String

/-- The three routing targets of the conditional edge.  `end_` models the
string `'__end__'` (`END`). -/
inductive Route where
  | tool_executor
  | human_in_the_loop
  | end_
deriving DecidableEq

/-- Embedding of `shouldContinue` from `agent-state.ts` (lines 176–214).  The TS function
returns the route string and mutates `state.requires_user_input` /
`state.pending_tool_name` in place; the embedding returns the route together
with the state after those writes.

Control flow mirrors the source:
`state.messages[state.messages.length - 1]` (undefined when empty, and
undefined is not an `AIMessage`), the `instanceof AIMessage` test, the
`tool_calls && tool_calls.length > 0` guard, the
`state.tool_definitions[toolCall.name]?.schema` lookup, and
`toolSchema.safeParse(toolCall.args)`. -/
def shouldContinue (state : AgentState) : Route × AgentState :=
  match state.messages.getLast? with
  | none => (Route.end_, state)
  | some lastMessage =>
    match lastMessage with
    | BaseMessage.human _ => (Route.end_, state)
    | BaseMessage.tool _ _ => (Route.end_, state)
    | BaseMessage.ai _ tool_calls _ =>
      match tool_calls with
      | none => (Route.end_, state)
      | some tcs =>
        match tcs with
        | [] => (Route.end_, state)
        | toolCall :: _ =>
          match state.tool_definitions.lookup toolCall.name with
          | none => (Route.end_, state)
          | some td =>
            match td.schema.safeParse toolCall.args with
            | Except.error _ =>
              (Route.human_in_the_loop,
                { state with requires_user_input := true,
                             pending_tool_name := some toolCall.name })
            | Except.ok _ =>
              (Route.tool_executor,
                { state with requires_user_input := false,
                             pending_tool_name := none })

/-- Embedding of `toolExecutorNode` from `agent-state.ts` (lines 84–113): re-emits the
first tool call of the latest `AIMessage` as a fresh `AIMessage` whose
single tool call is `{...toolCall, type: 'tool_call'}`; throws when the last
message is not an `AIMessage` with a `tool_calls` array.  An empty
`tool_calls` array passes the guard in the source but then crashes reading
`toolCall.name` of `undefined`; both failure shapes are `Except.error`.
The returned list is the `messages` field of the returned state update. -/
def toolExecutorNode (state : AgentState) : Except String (List BaseMessage) :=
  match state.messages.getLast? with
  | some (BaseMessage.ai _ (some tool_calls) _) =>
    match tool_calls with
    | [] => Except.error "TypeError: cannot read properties of undefined"
    | toolCall :: _ =>
      Except.ok
        [BaseMessage.ai "" (some [{ toolCall with type := some "tool_call" }]) none]
  | _ => Except.error "Invalid state: Expected an AIMessage with tool_calls."

/-- Outcome of the single `axios.post` to the rendering collaborator inside
`humanInTheLoopNode`: either the `response.data.html` string, or any failure
of the HTTP call (caught by the `try`/`catch` in the source). -/
inductive RenderOutcome where
  | ok (html : String)
  | fail

/-- The `RenderHtmlMessage` directive built by `humanInTheLoopNode`
(`api-contract.ts` shape: `type: 'render_html'` plus these fields). -/
structure RenderHtmlMsg where
  html : String
  component_id : String
  message : String
  schema : ZodSchema
  toolName : String

/-- The two shapes of `AIMessage` that `humanInTheLoopNode` can append: a
plain text message (the apology), or the wrapper around a `render_html`
directive (in the source: `content = JSON.stringify(renderMessage)` with
`additional_kwargs.type = 'agentic_ui_render_html'`; the directive is kept
structurally since `JSON.stringify` is injective on these records). -/
inductive HitlMessage where
  | plainText (content : String)
  | renderDirective (m : RenderHtmlMsg)

/-- Embedding of `humanInTheLoopNode` from `agent-state.ts` (lines 120–169).  Guards:
the source's `if (!pending_tool_name)` tests JS falsiness, so it throws both
when `pending_tool_name` is `undefined` and when it is the empty string;
then the node throws when the named tool is not in `tool_definitions`.
Only past both guards is the rendering collaborator contacted (the `render`
argument is that one call's outcome): on failure the apologetic text message
is appended instead of a directive; on success the `render_html` directive
is appended, with `component_id = 'dynamic-form'`, the prompt built from the
lower-cased tool description, the tool's schema and the tool's name.  The
returned list is the `messages` field of the returned state update. -/
def humanInTheLoopNode (render : RenderOutcome) (state : AgentState) :
    Except String (List HitlMessage) :=
  match state.pending_tool_name with
  | none => Except.error "Invalid state: pending_tool_name is not set."
  | some pending =>
    if pending.isEmpty then
      Except.error "Invalid state: pending_tool_name is not set."
    else
    match state.tool_definitions.lookup pending with
    | none => Except.error ("Tool " ++ pending ++ " not found.")
    | some tool =>
      match render with
      | RenderOutcome.fail =>
        Except.ok [HitlMessage.plainText
          "Sorry, I'm having trouble generating the form right now. Please try again in a moment."]
      | RenderOutcome.ok componentHtml =>
        Except.ok [HitlMessage.renderDirective
          { html := componentHtml,
            component_id := "dynamic-form",
            message := "I need some more information to "
                       ++ tool.description.toLower ++ ".",
            schema := tool.schema,
            toolName := tool.name }]

/-- Failure of a client-side tool function, as classified by the
`instanceof z.ZodError` test in `executeTool`'s catch block: a `ZodError`
(with its `message`), or any other thrown value. -/
inductive ToolFailure where
  | zodError (message : String)
  | other (message : String)
deriving DecidableEq

/-- Structure `ToolDefinition` from the tool-registry service: the full client-side
record, including the executable function and the permission list.
`toolFn` either returns a result (modelled as an opaque `String`) or throws. -/
structure ToolDefinition where
  name : String
  description : String
  schema : ZodSchema
  toolFn : Args → Except ToolFailure String
  permissions : List String

/-- The projection sent to the agent: only name, description and schema
(`AgentToolDefinition` on the registry side has exactly these fields). -/
def toAgentDefinition (t : ToolDefinition) : AgentToolDefinition :=
  { name := t.name, description := t.description, schema := t.schema }

/-- The authorization test inside `getToolDefinitionsForAgent`:
`tool.permissions.length === 0 ||
 tool.permissions.some((p) => currentUserPermissions.includes(p))`. -/
def isAuthorized (t : ToolDefinition) (currentUserPermissions : List String) : Bool :=
  t.permissions.length == 0
    || t.permissions.any (fun p => currentUserPermissions.contains p)

/-- Embedding of `getToolDefinitionsForAgent` from the tool-registry service (lines
164–182): iterates the registered tools in order, pushing the
`{name, description, schema}` projection of each authorized tool.  The
registry `Map` is modelled by its value list in insertion order. -/
def getToolDefinitionsForAgent :
    List ToolDefinition → List String → List AgentToolDefinition
  | [], _ => []
  | tool :: rest, currentUserPermissions =>
    if isAuthorized tool currentUserPermissions then
      toAgentDefinition tool :: getToolDefinitionsForAgent rest currentUserPermissions
    else
      getToolDefinitionsForAgent rest currentUserPermissions

/-- The errors `executeTool` can throw, by the three `throw` sites in the
source: the not-found error, the wrapped invalid-parameters error built for
a `ZodError`, and the re-thrown original error for anything else. -/
inductive ExecError where
  | notFound (message : String)
  | invalidParams (message : String)
  | clientError (message : String)
deriving DecidableEq

/-- Embedding of `executeTool` from the tool-registry service (lines 192–213).
`this.tools.get(name)` is modelled as `find?` on the tool's `name` field
(the registry `Map` is keyed by exactly that name).  The `try` block runs
`tool.schema.parse(params)` (which throws a `ZodError` exactly when
`safeParse` fails) and then `tool.toolFn(params)`; the `catch` re-throws any
`ZodError` — from either of the two — as the invalid-parameters `Error`, and
re-throws everything else unchanged. -/
def executeTool (tools : List ToolDefinition) (name : String) (params : Args) :
    Except ExecError String :=
  match tools.find? (fun t => t.name == name) with
  | none => Except.error (ExecError.notFound ("Tool \"" ++ name ++ "\" not found."))
  | some tool =>
    let attempt : Except ToolFailure String :=
      match tool.schema.safeParse params with
      | Except.error zodMessage => Except.error (ToolFailure.zodError zodMessage)
      | Except.ok _ => tool.toolFn params
    match attempt with
    | Except.ok value => Except.ok value
    | Except.error (ToolFailure.zodError m) =>
      Except.error (ExecError.invalidParams
        ("Invalid parameters for tool " ++ name ++ ": " ++ m))
    | Except.error (ToolFailure.other m) =>
      Except.error (ExecError.clientError m)

/-! Concrete sample data, following the demo registration in the host app:
the `searchFlights` tool whose Zod schema requires `departureCity` and
`arrivalCity` as nonempty strings and `departureDate` as a string. -/

/-- The demo flight-search schema: `departureCity`, `arrivalCity` nonempty
strings, `departureDate` a string; error messages as Zod would report them. -/
def flightSearchSchema : ZodSchema :=
  { safeParse := fun args =>
      match args.lookup "departureCity", args.lookup "arrivalCity",
            args.lookup "departureDate" with
      | some d, some a, some _ =>
        if d.length != 0 && a.length != 0 then Except.ok ()
        else Except.error "String must contain at least 1 character(s)"
      | _, _, _ => Except.error "Required" }

/-- The agent-visible definition of the demo `searchFlights` tool. -/
def searchFlightsDef : AgentToolDefinition :=
  { name := "searchFlights",
    description := "Search for available flights",
    schema := flightSearchSchema }

/-- A model tool call for `searchFlights` missing two required fields. -/
def incompleteFlightCall : ToolCall :=
  { name := "searchFlights", args := [("departureCity", "NYC")], id := some "call_1" }

/-- A model tool call for `searchFlights` with all three fields present. -/
def fullFlightCall : ToolCall :=
  { name := "searchFlights",
    args := [("departureCity", "NYC"), ("arrivalCity", "SFO"),
             ("departureDate", "2026-10-20")],
    id := some "call_2" }

/-- Session state whose last message requests `searchFlights` with
incomplete arguments. -/
def stateMissingArgs : AgentState :=
  { messages := [BaseMessage.human "find me a flight",
                 BaseMessage.ai "" (some [incompleteFlightCall]) none],
    tool_definitions := [("searchFlights", searchFlightsDef)],
    requires_user_input := false,
    pending_tool_name := none }

/-- Session state whose last message requests `searchFlights` with complete,
valid arguments. -/
def stateFullArgs : AgentState :=
  { messages := [BaseMessage.human "find me a flight",
                 BaseMessage.ai "" (some [fullFlightCall]) none],
    tool_definitions := [("searchFlights", searchFlightsDef)],
    requires_user_input := true,
    pending_tool_name := some "searchFlights" }

/-- Session state whose last message requests a tool absent from the catalog. -/
def stateUnknownTool : AgentState :=
  { messages := [BaseMessage.ai ""
      (some [{ name := "bookHotel", args := [], id := some "call_3" }]) none],
    tool_definitions := [("searchFlights", searchFlightsDef)],
    requires_user_input := false,
    pending_tool_name := none }

/-- Session state whose last model response carries no tool invocations. -/
def stateNoCalls : AgentState :=
  { messages := [BaseMessage.human "hi",
                 BaseMessage.ai "Hello! How can I help?" (some []) none],
    tool_definitions := [("searchFlights", searchFlightsDef)],
    requires_user_input := false,
    pending_tool_name := none }

/-! Theorems about the routing function. -/

/-- C1: for every agent state whose last message is a model response whose
first tool invocation names a tool present in `tool_definitions` and whose
arguments fail validation against that tool's schema, `shouldContinue`
returns `human_in_the_loop`, sets `requires_user_input` to `true`, and sets
`pending_tool_name` to that invocation's tool name. -/
theorem shouldContinue_invalid_args_routes_human_in_the_loop
    (s : AgentState) (c : String) (tc : ToolCall) (rest : List ToolCall)
    (kw : Option String) (td : AgentToolDefinition) (e : String)
    (hlast : s.messages.getLast? = some (BaseMessage.ai c (some (tc :: rest)) kw))
    (hdef : s.tool_definitions.lookup tc.name = some td)
    (hval : td.schema.safeParse tc.args = Except.error e) :
    (shouldContinue s).1 = Route.human_in_the_loop ∧
    (shouldContinue s).2.requires_user_input = true ∧
    (shouldContinue s).2.pending_tool_name = some tc.name := by
  simp [shouldContinue, hlast, hdef, hval]

/-- Witness for C1 (the spec's scenario: `searchFlights` requested with only
`departureCity: "NYC"`). -/
theorem shouldContinue_invalid_args_witness :
    (shouldContinue stateMissingArgs).1 = Route.human_in_the_loop ∧
    (shouldContinue stateMissingArgs).2.requires_user_input = true ∧
    (shouldContinue stateMissingArgs).2.pending_tool_name = some "searchFlights" :=
  shouldContinue_invalid_args_routes_human_in_the_loop stateMissingArgs
    "" incompleteFlightCall [] none searchFlightsDef "Required" rfl rfl rfl

/-- C2: for every agent state whose last message is a model response whose
first tool invocation names a tool present in `tool_definitions` and whose
arguments validate against that tool's schema, `shouldContinue` returns
`tool_executor`, sets `requires_user_input` to `false`, and clears
`pending_tool_name`. -/
theorem shouldContinue_valid_args_routes_tool_executor
    (s : AgentState) (c : String) (tc : ToolCall) (rest : List ToolCall)
    (kw : Option String) (td : AgentToolDefinition) (u : Unit)
    (hlast : s.messages.getLast? = some (BaseMessage.ai c (some (tc :: rest)) kw))
    (hdef : s.tool_definitions.lookup tc.name = some td)
    (hval : td.schema.safeParse tc.args = Except.ok u) :
    (shouldContinue s).1 = Route.tool_executor ∧
    (shouldContinue s).2.requires_user_input = false ∧
    (shouldContinue s).2.pending_tool_name = none := by
  simp [shouldContinue, hlast, hdef, hval]

/-- Witness for C2 (the spec's scenario: `searchFlights` with all three
fields present and valid). -/
theorem shouldContinue_valid_args_witness :
    (shouldContinue stateFullArgs).1 = Route.tool_executor ∧
    (shouldContinue stateFullArgs).2.requires_user_input = false ∧
    (shouldContinue stateFullArgs).2.pending_tool_name = none :=
  shouldContinue_valid_args_routes_tool_executor stateFullArgs
    "" fullFlightCall [] none searchFlightsDef () rfl rfl rfl

/-- C3: for every agent state whose last message is a model response whose
first tool invocation names a tool absent from `tool_definitions`,
`shouldContinue` returns `end` and leaves `requires_user_input` false. -/
theorem shouldContinue_unknown_tool_routes_end
    (s : AgentState) (c : String) (tc : ToolCall) (rest : List ToolCall)
    (kw : Option String)
    (hlast : s.messages.getLast? = some (BaseMessage.ai c (some (tc :: rest)) kw))
    (hdef : s.tool_definitions.lookup tc.name = none)
    (hru : s.requires_user_input = false) :
    (shouldContinue s).1 = Route.end_ ∧
    (shouldContinue s).2.requires_user_input = false := by
  simp [shouldContinue, hlast, hdef, hru]

/-- Witness for C3 (the model hallucinates a `bookHotel` tool). -/
theorem shouldContinue_unknown_tool_witness :
    (shouldContinue stateUnknownTool).1 = Route.end_ ∧
    (shouldContinue stateUnknownTool).2.requires_user_input = false :=
  shouldContinue_unknown_tool_routes_end stateUnknownTool
    "" { name := "bookHotel", args := [], id := some "call_3" } [] none
    rfl rfl rfl

/-- C4: for every agent state whose last message is either not a model
response, or a model response carrying zero tool invocations,
`shouldContinue` returns `end` and mutates no session field: the returned
state is the input state (so `requires_user_input`, `pending_tool_name`,
`messages` and `tool_definitions` are all unchanged). -/
theorem shouldContinue_no_invocations_routes_end_no_mutation
    (s : AgentState) (m : BaseMessage)
    (hlast : s.messages.getLast? = some m)
    (hm : ∀ c tcs kw, m = BaseMessage.ai c (some tcs) kw → tcs = []) :
    shouldContinue s = (Route.end_, s) := by
  cases m with
  | human _ => simp [shouldContinue, hlast]
  | tool _ _ => simp [shouldContinue, hlast]
  | ai c tcs kw =>
    cases tcs with
    | none => simp [shouldContinue, hlast]
    | some l =>
      cases l with
      | nil => simp [shouldContinue, hlast]
      | cons hd tl => exact absurd (hm c (hd :: tl) kw rfl) (by simp)

/-- Witness for C4 (a model response with an empty `tool_calls` array). -/
theorem shouldContinue_no_invocations_witness :
    shouldContinue stateNoCalls = (Route.end_, stateNoCalls) :=
  shouldContinue_no_invocations_routes_end_no_mutation stateNoCalls
    (BaseMessage.ai "Hello! How can I help?" (some []) none) rfl
    (fun _ _ _ h => by
      injection h with h1 h2 h3
      exact (Option.some.inj h2).symm)

/-- C5: for every agent state whose last message is a model response with at
least one tool invocation, `toolExecutorNode` appends exactly one message
re-emitting only the first invocation as a `tool_call` directive — the
re-emitted call is tagged `type = 'tool_call'` (the `{...toolCall, type:
'tool_call'}` spread in the source) and keeps the same name, params
(`args`) and `tool_call_id` (`id`); every further invocation of that model
response is dropped.  The node's type shows it invokes no tool function:
the server holds only `AgentToolDefinition`s, which carry no executable
body. -/
theorem toolExecutorNode_reemits_first_call
    (s : AgentState) (c : String) (tc : ToolCall) (rest : List ToolCall)
    (kw : Option String)
    (hlast : s.messages.getLast? = some (BaseMessage.ai c (some (tc :: rest)) kw)) :
    ∃ tc' : ToolCall,
      toolExecutorNode s = Except.ok [BaseMessage.ai "" (some [tc']) none] ∧
      tc'.name = tc.name ∧ tc'.args = tc.args ∧ tc'.id = tc.id ∧
      tc'.type = some "tool_call" := by
  refine ⟨{ tc with type := some "tool_call" }, ?_, rfl, rfl, rfl, rfl⟩
  simp [toolExecutorNode, hlast]

/-- Witness for C5 (the valid `searchFlights` request is re-emitted as a
tagged `tool_call` with its `tool_call_id`). -/
theorem toolExecutorNode_reemits_witness :
    ∃ tc' : ToolCall,
      toolExecutorNode stateFullArgs =
        Except.ok [BaseMessage.ai "" (some [tc']) none] ∧
      tc'.name = "searchFlights" ∧ tc'.args = fullFlightCall.args ∧
      tc'.id = some "call_2" ∧ tc'.type = some "tool_call" :=
  toolExecutorNode_reemits_first_call stateFullArgs "" fullFlightCall [] none rfl

/-- An agent-visible tool registered under the empty name (nothing in the
registry forbids it; `registerTool('', ...)` stores the key `''`). -/
def emptyNameTool : AgentToolDefinition :=
  { name := "",
    description := "No description provided.",
    schema := { safeParse := fun _ => Except.ok () } }

/-- Session state whose `pending_tool_name` is the empty string, which is
nonetheless present as a key of `tool_definitions`. -/
def stateEmptyPending : AgentState :=
  { messages := [],
    tool_definitions := [("", emptyNameTool)],
    requires_user_input := true,
    pending_tool_name := some "" }

/-- Counterexample to C6 as stated: `pending_tool_name` is set (to `""`) and
names a tool present in `tool_definitions`, the render call fails, yet
`humanInTheLoopNode` does not append the apologetic message — the JS-falsy
guard `if (!pending_tool_name)` throws on the empty string before the
rendering collaborator is ever consulted. -/
theorem humanInTheLoopNode_empty_pending_counterexample :
    stateEmptyPending.pending_tool_name = some "" ∧
    stateEmptyPending.tool_definitions.lookup "" = some emptyNameTool ∧
    humanInTheLoopNode RenderOutcome.fail stateEmptyPending =
      Except.error "Invalid state: pending_tool_name is not set." ∧
    humanInTheLoopNode RenderOutcome.fail stateEmptyPending ≠
      Except.ok [HitlMessage.plainText
        "Sorry, I'm having trouble generating the form right now. Please try again in a moment."] :=
  ⟨rfl, rfl, rfl, fun h => Except.noConfusion h⟩

/-- C6 (amended): for every agent state with `pending_tool_name` set to a
nonempty tool name present in `tool_definitions`, when the call to the
rendering collaborator fails, `humanInTheLoopNode` appends the plain
apologetic text message instead of a `render_html` directive, and returns
normally: no error propagates to the caller from the render failure (and
the single modelled render call is not re-attempted). -/
theorem humanInTheLoopNode_render_failure_apology
    (s : AgentState) (n : String) (td : AgentToolDefinition)
    (hp : s.pending_tool_name = some n)
    (hne : n.isEmpty = false)
    (hd : s.tool_definitions.lookup n = some td) :
    humanInTheLoopNode RenderOutcome.fail s =
      Except.ok [HitlMessage.plainText
        "Sorry, I'm having trouble generating the form right now. Please try again in a moment."] := by
  simp [humanInTheLoopNode, hp, hne, hd]

/-- Witness for C6 (pending `searchFlights`, render call fails). -/
theorem humanInTheLoopNode_render_failure_witness :
    humanInTheLoopNode RenderOutcome.fail stateFullArgs =
      Except.ok [HitlMessage.plainText
        "Sorry, I'm having trouble generating the form right now. Please try again in a moment."] :=
  humanInTheLoopNode_render_failure_apology stateFullArgs
    "searchFlights" searchFlightsDef rfl rfl rfl

/-- Predicate: `needle` occurs as a contiguous substring of `hay`. -/
def strContains (hay needle : String) : Prop :=
  ∃ pre post, hay = pre ++ needle ++ post

/-- C7: for every tool for which `humanInTheLoopNode` successfully builds a
`render_html` directive — i.e. whenever the node returns normally with a
directive among its appended messages — that tool is the catalogued pending
tool, the directive's `message` field contains the tool's description
lower-cased as a substring, and its `toolName` field equals the tool's
name. -/
theorem humanInTheLoopNode_render_message_round_trip
    (s : AgentState) (r : RenderOutcome) (msgs : List HitlMessage)
    (m : RenderHtmlMsg)
    (hok : humanInTheLoopNode r s = Except.ok msgs)
    (hmem : HitlMessage.renderDirective m ∈ msgs) :
    ∃ n td, s.pending_tool_name = some n ∧
            s.tool_definitions.lookup n = some td ∧
            strContains m.message td.description.toLower ∧
            m.toolName = td.name := by
  rcases hp : s.pending_tool_name with _ | n
  · simp [humanInTheLoopNode, hp] at hok
  · by_cases hne : n.isEmpty
    · simp [humanInTheLoopNode, hp, hne] at hok
    · rcases hd : s.tool_definitions.lookup n with _ | td
      · simp [humanInTheLoopNode, hp, hne, hd] at hok
      · cases r with
        | fail =>
          simp [humanInTheLoopNode, hp, hne, hd] at hok
          subst hok
          simp at hmem
        | ok html =>
          simp [humanInTheLoopNode, hp, hne, hd] at hok
          subst hok
          simp at hmem
          subst hmem
          exact ⟨n, td, rfl, hd,
            ⟨"I need some more information to ", ".", rfl⟩, rfl⟩

/-- The directive `humanInTheLoopNode` builds for `searchFlights` on a
successful render of `<form></form>`. -/
def sampleRenderDirective : RenderHtmlMsg :=
  { html := "<form></form>",
    component_id := "dynamic-form",
    message := "I need some more information to "
               ++ searchFlightsDef.description.toLower ++ ".",
    schema := searchFlightsDef.schema,
    toolName := searchFlightsDef.name }

/-- Witness for C7 (the `searchFlights` form prompt embeds the lower-cased
description and carries the tool's name). -/
theorem humanInTheLoopNode_round_trip_witness :
    ∃ n td, stateFullArgs.pending_tool_name = some n ∧
            stateFullArgs.tool_definitions.lookup n = some td ∧
            strContains sampleRenderDirective.message td.description.toLower ∧
            sampleRenderDirective.toolName = td.name :=
  humanInTheLoopNode_render_message_round_trip stateFullArgs
    (RenderOutcome.ok "<form></form>")
    [HitlMessage.renderDirective sampleRenderDirective] sampleRenderDirective
    rfl (List.mem_singleton.mpr rfl)

/-- C10: for every agent state in which `pending_tool_name` is unset, or
names a tool absent from `tool_definitions`, `humanInTheLoopNode` throws
before contacting the rendering collaborator — it fails identically for
every possible render outcome; and, generally, a `render_html` directive is
only ever produced when `pending_tool_name` names a tool present in the
catalog (and the directive carries that tool's name). -/
theorem humanInTheLoopNode_throws_before_render
    (s : AgentState)
    (h : s.pending_tool_name = none ∨
         ∃ n, s.pending_tool_name = some n ∧ s.tool_definitions.lookup n = none) :
    (∀ r : RenderOutcome, ∃ e, humanInTheLoopNode r s = Except.error e) ∧
    (∀ (s' : AgentState) (r : RenderOutcome) (msgs : List HitlMessage)
       (m : RenderHtmlMsg),
       humanInTheLoopNode r s' = Except.ok msgs →
       HitlMessage.renderDirective m ∈ msgs →
       ∃ n td, s'.pending_tool_name = some n ∧
               s'.tool_definitions.lookup n = some td ∧ m.toolName = td.name) := by
  constructor
  · intro r
    rcases h with hp | ⟨n, hp, hd⟩
    · exact ⟨"Invalid state: pending_tool_name is not set.",
        by simp [humanInTheLoopNode, hp]⟩
    · by_cases hne : n.isEmpty
      · exact ⟨"Invalid state: pending_tool_name is not set.",
          by simp [humanInTheLoopNode, hp, hne]⟩
      · exact ⟨"Tool " ++ n ++ " not found.",
          by simp [humanInTheLoopNode, hp, hne, hd]⟩
  · intro s' r msgs m hok hmem
    rcases hp : s'.pending_tool_name with _ | n
    · simp [humanInTheLoopNode, hp] at hok
    · by_cases hne : n.isEmpty
      · simp [humanInTheLoopNode, hp, hne] at hok
      · rcases hd : s'.tool_definitions.lookup n with _ | td
        · simp [humanInTheLoopNode, hp, hne, hd] at hok
        · cases r with
          | fail =>
            simp [humanInTheLoopNode, hp, hne, hd] at hok
            subst hok
            simp at hmem
          | ok html =>
            simp [humanInTheLoopNode, hp, hne, hd] at hok
            subst hok
            simp at hmem
            subst hmem
            exact ⟨n, td, rfl, hd, rfl⟩

/-- Witness for C10 (no pending tool: the node fails without consulting the
renderer). -/
theorem humanInTheLoopNode_throws_witness :
    ∃ e, humanInTheLoopNode RenderOutcome.fail stateNoCalls = Except.error e :=
  (humanInTheLoopNode_throws_before_render stateNoCalls (Or.inl rfl)).1
    RenderOutcome.fail

/-! Client-side tool registry: sample tools and theorems. -/

/-- A schema accepting every argument payload. -/
def acceptAllSchema : ZodSchema := { safeParse := fun _ => Except.ok () }

/-- A registered tool whose function itself fails with a `ZodError` (e.g. it
validates some inner payload with Zod and lets that error escape). -/
def zodThrowingTool : ToolDefinition :=
  { name := "zodThrower",
    description := "A tool whose body throws a ZodError",
    schema := acceptAllSchema,
    toolFn := fun _ => Except.error (ToolFailure.zodError "boom"),
    permissions := [] }

/-- Counterexample to C8 as stated: for `zodThrowingTool`, the params
satisfy the schema and the registered function is invoked and fails with its
own error (`ZodError "boom"`), yet `executeTool` does not propagate that
failure — the catch block's `instanceof z.ZodError` test matches it and
re-reports it as the invalid-parameters condition. -/
theorem executeTool_zod_failure_not_propagated :
    zodThrowingTool.schema.valid [] = true ∧
    zodThrowingTool.toolFn [] = Except.error (ToolFailure.zodError "boom") ∧
    executeTool [zodThrowingTool] "zodThrower" [] =
      Except.error (ExecError.invalidParams
        "Invalid parameters for tool zodThrower: boom") ∧
    executeTool [zodThrowingTool] "zodThrower" [] ≠
      Except.error (ExecError.clientError "boom") := by
  exact ⟨rfl, rfl, rfl, fun h => ExecError.noConfusion (Except.error.inj h)⟩

/-- The client-side execution contract as amended: lookup by name fails with
the not-found error when unregistered; parameters failing the tool's schema
fail with the invalid-parameters condition without consulting the function;
otherwise the function runs and its result is returned, its failure
propagating unchanged — unless that failure is itself a Zod validation
error, which is re-reported as the invalid-parameters condition. -/
def executeToolExpected (tools : List ToolDefinition) (name : String)
    (params : Args) : Except ExecError String :=
  match tools.find? (fun t => t.name == name) with
  | none => Except.error (ExecError.notFound ("Tool \"" ++ name ++ "\" not found."))
  | some tool =>
    match tool.schema.safeParse params with
    | Except.error m =>
      Except.error (ExecError.invalidParams
        ("Invalid parameters for tool " ++ name ++ ": " ++ m))
    | Except.ok _ =>
      match tool.toolFn params with
      | Except.ok value => Except.ok value
      | Except.error (ToolFailure.zodError m) =>
        Except.error (ExecError.invalidParams
          ("Invalid parameters for tool " ++ name ++ ": " ++ m))
      | Except.error (ToolFailure.other m) =>
        Except.error (ExecError.clientError m)

/-- C8 (amended): `executeTool` realizes `executeToolExpected` on every
input — not-found for unregistered names; invalid-parameters, without
running the function, for params failing the schema; otherwise the
function's result, or its own failure propagated, except that a Zod error
thrown by the function is re-reported as invalid parameters. -/
theorem executeTool_matches_amended_contract
    (tools : List ToolDefinition) (name : String) (params : Args) :
    executeTool tools name params = executeToolExpected tools name params := by
  unfold executeTool executeToolExpected
  cases tools.find? (fun t => t.name == name) with
  | none => rfl
  | some tool =>
    cases hs : tool.schema.safeParse params with
    | error m => simp [hs]
    | ok u =>
      cases hf : tool.toolFn params with
      | ok v => simp [hs, hf]
      | error f => cases f <;> simp [hs, hf]

/-- Membership in the agent projection, unfolded: exactly the projections of
the authorized registered tools. Shared helper for the capability theorems. -/
theorem mem_getToolDefinitionsForAgent_iff
    (tools : List ToolDefinition) (perms : List String) (e : AgentToolDefinition) :
    e ∈ getToolDefinitionsForAgent tools perms ↔
      ∃ t, t ∈ tools ∧ isAuthorized t perms = true ∧ e = toAgentDefinition t := by
  induction tools with
  | nil => simp [getToolDefinitionsForAgent]
  | cons hd tl ih =>
    by_cases h : isAuthorized hd perms = true
    · simp only [getToolDefinitionsForAgent, if_pos h, List.mem_cons, ih]
      constructor
      · rintro (rfl | ⟨t, ht, hat, rfl⟩)
        · exact ⟨hd, Or.inl rfl, h, rfl⟩
        · exact ⟨t, Or.inr ht, hat, rfl⟩
      · rintro ⟨t, (rfl | ht), hat, rfl⟩
        · exact Or.inl rfl
        · exact Or.inr ⟨t, ht, hat, rfl⟩
    · simp only [getToolDefinitionsForAgent, if_neg h, ih]
      constructor
      · rintro ⟨t, ht, hat, rfl⟩
        exact ⟨t, List.mem_cons_of_mem hd ht, hat, rfl⟩
      · rintro ⟨t, hmem, hat, rfl⟩
        rcases List.mem_cons.mp hmem with rfl | ht
        · exact absurd hat h
        · exact ⟨t, ht, hat, rfl⟩

/-- In a registry with pairwise-distinct tool names (a `Map` keyed by name),
two registered tools with the same name coincide.  Shared helper. -/
theorem registry_name_injective
    (tools : List ToolDefinition)
    (hnodup : (tools.map (fun t => t.name)).Nodup)
    {u v : ToolDefinition} (hu : u ∈ tools) (hv : v ∈ tools)
    (hname : u.name = v.name) : u = v :=
  List.inj_on_of_nodup_map hnodup hu hv hname

/-- C9: over a registry with distinct tool names, the agent projection
includes a registered tool exactly when its permission set is empty or the
caller holds at least one listed permission; and every returned entry is the
`{name, description, schema}` projection of some authorized registered tool
— by the type of `AgentToolDefinition`, never the executable function or
the permission list. -/
theorem getToolDefinitionsForAgent_capability_projection
    (tools : List ToolDefinition) (perms : List String)
    (hnodup : (tools.map (fun t => t.name)).Nodup) :
    (∀ t, t ∈ tools →
      (toAgentDefinition t ∈ getToolDefinitionsForAgent tools perms ↔
        isAuthorized t perms = true)) ∧
    (∀ e, e ∈ getToolDefinitionsForAgent tools perms →
      ∃ t, t ∈ tools ∧ isAuthorized t perms = true ∧ e = toAgentDefinition t) := by
  constructor
  · intro t ht
    rw [mem_getToolDefinitionsForAgent_iff]
    constructor
    · rintro ⟨u, hu, hau, hequ⟩
      have hname : u.name = t.name :=
        congrArg AgentToolDefinition.name hequ.symm
      have : u = t := registry_name_injective tools hnodup hu ht hname
      exact this ▸ hau
    · intro hat
      exact ⟨t, ht, hat, rfl⟩
  · intro e he
    exact (mem_getToolDefinitionsForAgent_iff tools perms e).mp he

/-- A public demo tool (empty permission list). -/
def publicEchoTool : ToolDefinition :=
  { name := "echoPublic",
    description := "Echo a message",
    schema := acceptAllSchema,
    toolFn := fun _ => Except.ok "ok",
    permissions := [] }

/-- A demo tool restricted to callers holding the `admin` permission. -/
def adminResetTool : ToolDefinition :=
  { name := "resetSystem",
    description := "Reset the system",
    schema := acceptAllSchema,
    toolFn := fun _ => Except.ok "ok",
    permissions := ["admin"] }

/-- Witness for C9 (a caller with only the `user` permission sees the public
tool). -/
theorem getToolDefinitionsForAgent_witness :
    toAgentDefinition publicEchoTool ∈
      getToolDefinitionsForAgent [publicEchoTool, adminResetTool] ["user"] ↔
    isAuthorized publicEchoTool ["user"] = true :=
  (getToolDefinitionsForAgent_capability_projection
      [publicEchoTool, adminResetTool] ["user"] (by decide)).1
    publicEchoTool (List.mem_cons_self _ _)

end Callisto
